import Mathlib

/-!
# Verification of the GuideGuard logits processor (src/guideguard.py)

This file shallowly embeds the single non-trivial component of the repository,
the class `GuideGuardLogitsProcessor`, and proves properties about it.

Modelling conventions:

* Token ids are natural numbers.  The model's per-token scores are exact
  rationals (`ℚ`); the spec's data model calls them real-valued.  The float
  constant `0.1` of the eraser is embedded as the exact rational `1 / 10`.
* The returned tensor may contain the sentinel written by
  `torch.full_like(scores, -float("inf"))`; its entries are embedded as `SVal`,
  either `SVal.ninf` (the sentinel) or `SVal.val q` (a finite score).
* `input_ids` is embedded as the 1-D list of generated token ids, the reading
  under which the source's `input_ids[-3:]` denotes the last (at most) three
  tokens and `convert_ids_to_tokens` receives a list of ids.  `scores` is
  embedded as the 2-D batch, a list of score rows, because the source indexes
  it two-dimensionally (`topk_indices[0]`, `mask[:, allowed_list]`,
  `scores[:, allowed_list]`).
* The external tokenizer and the external spaCy tagger are oracles supplied by
  the environment; they are fields of the embedded processor.  Following the
  spec's tokenizer boundary they are total functions.  The HuggingFace method
  `convert_ids_to_tokens` has both a list overload (used in
  `_predict_next_pos`) and a single-id overload (used in the candidate loop,
  where the source guards the result with `isinstance(token_str, str)`); the
  two overloads are embedded as the two fields `convert_ids_to_tokens` and
  `convert_id_to_token`, the latter returning `none` for a non-string result.
* One call of the tagger (`self.nlp(clean_token)` followed by
  `doc and doc[0].pos_`) can raise, return an empty document, or return a
  first token with a part-of-speech tag; this is the type `TagResult` below.
* Python string methods `.lower()/.strip()/.endswith()/.replace()` are embedded
  structurally on `String.data` so that every definition evaluates inside the
  kernel.  `Char.toLower` only lowers ASCII letters, which agrees with
  Python's `str.lower` on all trigger strings of the configured rule tables.
* `torch.topk(scores, k=20, dim=-1)` returns the indices of the 20 largest
  entries of a row in descending score order; ties are broken towards the
  lower index, matching the CPU backend.  This is embedded as an insertion
  sort of all indices by descending score (index ascending on equal scores)
  followed by `take`.
-/

namespace GuideGuard

/-- Outcome of one external tagger call on a candidate's cleaned surface form:
the spaCy pipeline can raise (caught by the source's `try/except`), return a
falsy empty document (`if doc and ...`), or return a document whose first
token carries the part-of-speech tag `doc[0].pos_`. -/
inductive TagResult where
  | raises : TagResult
  | emptyDoc : TagResult
  | tagged : String → TagResult
  deriving DecidableEq

/-- One entry of the returned score tensor: either the large negative sentinel
written by `torch.full_like(scores, -float("inf"))` or a finite score. -/
inductive SVal where
  | ninf : SVal
  | val : ℚ → SVal
  deriving DecidableEq

/-- Strict comparison of score entries, with `-inf` below every finite score
and `-inf < -inf` false, as for IEEE floats. -/
def SVal.blt : SVal → SVal → Bool
  | _, SVal.ninf => false
  | SVal.ninf, SVal.val _ => true
  | SVal.val a, SVal.val b => decide (a < b)

/-- Binary maximum of score entries, as computed by `torch.max`. -/
def SVal.maxS (a b : SVal) : SVal :=
  if SVal.blt a b then b else a

/-- The product `original_max * 0.1` from the eraser, with the float constant `0.1`
embedded as the exact rational `1 / 10`. -/
def SVal.mulPointOne : SVal → SVal
  | SVal.ninf => SVal.ninf
  | SVal.val q => SVal.val (q * (1 / 10))

/-- Python `str.lower()` (ASCII range, which covers every configured
trigger string). -/
def pyLower (s : String) : String :=
  ⟨s.data.map Char.toLower⟩

/-- Python `str.strip()`: drop leading and trailing whitespace. -/
def pyStrip (s : String) : String :=
  ⟨((s.data.dropWhile Char.isWhitespace).reverse.dropWhile Char.isWhitespace).reverse⟩

/-- Python `s.endswith(t)`. -/
def pyEndsWith (s t : String) : Bool :=
  t.data.isSuffixOf s.data

/-- Python `str.replace("##", "")`: delete every occurrence of `##`,
scanning left to right without overlap. -/
def removeHashHash : List Char → List Char
  | '#' :: '#' :: rest => removeHashHash rest
  | c :: rest => c :: removeHashHash rest
  | [] => []

/-- The cleaning step `token_str.replace("▁", "").replace("##", "")` of the candidate loop.
Replacing a single-character pattern by the empty string is a filter. -/
def clean_token (s : String) : String :=
  ⟨removeHashHash (s.data.filter (fun c => !(c == '▁')))⟩

/-- Python `l[-3:]` on a 1-D sequence. -/
def takeLast (n : Nat) (l : List α) : List α :=
  l.drop (l.length - n)

/-- The embedded `GuideGuardLogitsProcessor` object: the external tokenizer
and tagger oracles plus the configuration stored by `__init__`.
`nlp_lang` is `self.nlp.meta["lang"]` ("zh" or "en" for the two loadable
models).  `confidence_threshold` is stored by `__init__` and never read
anywhere else in the source. -/
structure GuideGuardLogitsProcessor where
  convert_ids_to_tokens : List Nat → List String
  convert_tokens_to_string : List String → String
  convert_id_to_token : Nat → Option String
  nlp_tag : String → TagResult
  nlp_lang : String
  confidence_threshold : ℚ
  enable_eraser : Bool

/-- The literal `self.syntactic_patterns` table (v0.1.1), in Python dict
insertion order: language, then phrase-category group, then rules. -/
def syntactic_patterns : List (String × List (String × List (String × String))) :=
  [("zh",
    [("NP", [("的", "NOUN"), ("一个", "NOUN"), ("这种", "NOUN"), ("那个", "NOUN")]),
     ("VP", [("被", "VERB"), ("正在", "VERB"), ("已经", "VERB"), ("开始", "VERB")]),
     ("AP", [("很", "ADJ"), ("非常", "ADJ"), ("特别", "ADJ"), ("极其", "ADJ")])]),
   ("en",
    [("NP", [("the", "NOUN"), ("a", "NOUN"), ("an", "NOUN"), ("this", "NOUN")]),
     ("VP", [("will", "VERB"), ("can", "VERB"), ("is", "VERB"), ("has", "VERB")]),
     ("PP", [("in", "NOUN"), ("on", "NOUN"), ("at", "NOUN"), ("with", "NOUN")])])]

/-- The flattened rule list of one language, in the fixed iteration order of
`_predict_next_pos`: phrase-category group order, then rule order within a
group. -/
def flat_rules (lang : String) : List (String × String) :=
  ((List.lookup lang syntactic_patterns).getD []).flatMap Prod.snd

/-- The assignment `text = convert_tokens_to_string(convert_ids_to_tokens(input_ids[-3:]
.tolist())).strip().lower()` from `_predict_next_pos`. -/
def rendered_text (P : GuideGuardLogitsProcessor) (input_ids : List Nat) : String :=
  pyLower (pyStrip (P.convert_tokens_to_string (P.convert_ids_to_tokens (takeLast 3 input_ids))))

/-- The inner rule loop of `_predict_next_pos`: return the expected category
of the first trigger that `text` ends with. -/
def find_rule (text : String) : List (String × String) → Option String
  | [] => none
  | (trigger, expected_pos) :: rest =>
    if pyEndsWith text trigger then some expected_pos else find_rule text rest

/-- The outer group loop of `_predict_next_pos`, iterating phrase-category
groups in table order. -/
def find_trigger (text : String) : List (String × List (String × String)) → Option String
  | [] => none
  | (_, rules) :: rest =>
    match find_rule text rules with
    | some p => some p
    | none => find_trigger text rest

/-- Embedding of `GuideGuardLogitsProcessor._predict_next_pos`: `text` is `rendered_text`;
`if not text: return None`; then
`patterns = self.syntactic_patterns.get(lang, {})` with
`lang = self.nlp.meta["lang"]`, and the nested trigger loop. -/
def predict_next_pos (P : GuideGuardLogitsProcessor) (input_ids : List Nat) : Option String :=
  if rendered_text P input_ids = "" then none
  else find_trigger (rendered_text P input_ids) ((List.lookup P.nlp_lang syntactic_patterns).getD [])

/-- Comparator of `torch.topk`: descending score, lower index first on
equal scores. -/
def byScoreDesc (row : List ℚ) (i j : Nat) : Bool :=
  decide (row.getD j 0 < row.getD i 0) ||
    (decide (row.getD i 0 = row.getD j 0) && decide (i ≤ j))

/-- Insert one index into an index list sorted by `le`. -/
def insertDesc (le : Nat → Nat → Bool) (i : Nat) : List Nat → List Nat
  | [] => [i]
  | j :: rest => if le i j then i :: j :: rest else j :: insertDesc le i rest

/-- Insertion sort of an index list by `le`. -/
def sortIdx (le : Nat → Nat → Bool) : List Nat → List Nat
  | [] => []
  | i :: rest => insertDesc le i (sortIdx le rest)

/-- Embedding of `torch.topk(row, k)[1]`: indices of the `k` largest entries of one score
row, in descending score order. -/
def topk_indices (row : List ℚ) (k : Nat) : List Nat :=
  (sortIdx (byScoreDesc row) (List.range row.length)).take k

/-- Embedding of `topk_indices[0][:10].tolist()`: the candidate ids the loop inspects,
namely the first 10 of the first row's top 20. -/
def inspected_ids (row : List ℚ) : List Nat :=
  (topk_indices row 20).take 10

/-- One iteration of the candidate loop of `__call__`: whether `token_id` is
added to `allowed_by_candidates` (and `pos_count[next_pos]` incremented).
`convert_id_to_token` returning `none` is the failed `isinstance(token_str,
str)` check; an empty cleaned token fails `if clean_token.strip():`; a raising
tagger is caught by `except Exception: pass`; an empty document fails
`if doc and ...`; otherwise `doc[0].pos_` is compared with `next_pos`. -/
def cand_matches (P : GuideGuardLogitsProcessor) (next_pos : String) (token_id : Nat) : Bool :=
  match P.convert_id_to_token token_id with
  | none => false
  | some token_str =>
    if pyStrip (clean_token token_str) = "" then false
    else
      match P.nlp_tag (clean_token token_str) with
      | TagResult.tagged p => p == next_pos
      | _ => false

/-- The set `allowed_by_candidates` built by the loop, as the sublist of the
inspected candidate ids that match.  The inspected ids are pairwise distinct
(indices of one row), so the size of this list is exactly the final value of
`pos_count.get(next_pos, 0)`: the loop adds to the set and increments the
counter in the same step. -/
def allowed_by_candidates (P : GuideGuardLogitsProcessor) (next_pos : String) (row : List ℚ) : List Nat :=
  (inspected_ids row).filter (cand_matches P next_pos)

/-- Coercion of one input row into sentinel-typed entries (the tensor that
`return scores` hands back, unchanged). -/
def embed_row (row : List ℚ) : List SVal :=
  row.map SVal.val

/-- Coercion of the whole input batch. -/
def embed_scores (scores : List (List ℚ)) : List (List SVal) :=
  scores.map embed_row

/-- One row of `mask` after `mask = torch.full_like(scores, -float("inf"))`
and `mask[:, allowed_list] = scores[:, allowed_list]`: each row keeps its own
scores at the allowed column indices and the sentinel everywhere else. -/
def mask_row (allowed : List Nat) (row : List ℚ) : List SVal :=
  (List.range row.length).map
    (fun i => if i ∈ allowed then SVal.val (row.getD i 0) else SVal.ninf)

/-- The full `mask` tensor. -/
def mask_vec (allowed : List Nat) (scores : List (List ℚ)) : List (List SVal) :=
  scores.map (mask_row allowed)

/-- Embedding of `torch.max` over a whole (batched) tensor. -/
def flat_max (t : List (List SVal)) : SVal :=
  t.foldl (fun acc row => row.foldl SVal.maxS acc) SVal.ninf

/-- The eraser test `constrained_max < original_max * 0.1`, with
`original_max = torch.max(scores)` and `constrained_max = torch.max(mask)`
both taken over the whole batch. -/
def eraser_fires (mask : List (List SVal)) (scores : List (List ℚ)) : Bool :=
  SVal.blt (flat_max mask) (SVal.mulPointOne (flat_max (embed_scores scores)))

/-- Embedding of `GuideGuardLogitsProcessor.__call__`.  Branch by branch:
no prediction returns `scores`; `pos_count.get(next_pos, 0) >= 3` is
`3 ≤ allowed.length` (see `allowed_by_candidates`); `if allowed_list:`
failing falls through to the final `return scores`; with the eraser enabled
and firing, `return scores`; otherwise `return mask`. -/
def call (P : GuideGuardLogitsProcessor) (input_ids : List Nat) (scores : List (List ℚ)) : List (List SVal) :=
  match predict_next_pos P input_ids with
  | none => embed_scores scores
  | some next_pos =>
    if 3 ≤ (allowed_by_candidates P next_pos (scores.headD [])).length then
      if allowed_by_candidates P next_pos (scores.headD []) = [] then embed_scores scores
      else
        if P.enable_eraser &&
            eraser_fires (mask_vec (allowed_by_candidates P next_pos (scores.headD [])) scores) scores then
          embed_scores scores
        else mask_vec (allowed_by_candidates P next_pos (scores.headD [])) scores
    else embed_scores scores

/-- State-passing rendering of `__call__` over the caller's `scores` buffer:
the second component is the buffer after the call.  Every tensor write of the
source (`mask[:, allowed_list] = ...`) targets the tensor freshly allocated by
`torch.full_like`; no statement assigns into `scores`, so the buffer is
threaded through every branch unchanged. -/
def call_st (P : GuideGuardLogitsProcessor) (input_ids : List Nat) (scores : List (List ℚ)) :
    List (List SVal) × List (List ℚ) :=
  match predict_next_pos P input_ids with
  | none => (embed_scores scores, scores)
  | some next_pos =>
    if 3 ≤ (allowed_by_candidates P next_pos (scores.headD [])).length then
      if allowed_by_candidates P next_pos (scores.headD []) = [] then (embed_scores scores, scores)
      else
        if P.enable_eraser &&
            eraser_fires (mask_vec (allowed_by_candidates P next_pos (scores.headD [])) scores) scores then
          (embed_scores scores, scores)
        else (mask_vec (allowed_by_candidates P next_pos (scores.headD [])) scores, scores)
    else (embed_scores scores, scores)

/-- The two construction-time error kinds of the source: the uncaught
`ValueError` of `_get_spacy_model` and the `RuntimeError` it raises when
`spacy.load` fails with `OSError`. -/
inductive GGError where
  | valueError : String → GGError
  | runtimeError : String → GGError
  deriving DecidableEq

/-- Embedding of `_get_spacy_model`: "zh" and "en" load the corresponding model (the
environment parameter `spacy_available` tells whether `spacy.load` succeeds,
i.e. whether the model resource is installed); every other selector raises
`ValueError`, which the `except OSError` clause does not catch.  The module
cache `_SPACY_MODELS` only memoizes successful loads and is dropped here. -/
def get_spacy_model (spacy_available : String → Bool) (lang : String) : Except GGError String :=
  if lang = "zh" then
    if spacy_available "zh" then Except.ok "zh"
    else Except.error (GGError.runtimeError ("spaCy model for " ++ lang ++ " not found"))
  else if lang = "en" then
    if spacy_available "en" then Except.ok "en"
    else Except.error (GGError.runtimeError ("spaCy model for " ++ lang ++ " not found"))
  else Except.error (GGError.valueError ("Unsupported language: " ++ lang))

/-- The configuration stored by a successful `__init__`: the loaded model's
language, and the two constructor arguments stored without any validation. -/
structure InitResult where
  nlp_lang : String
  confidence_threshold : ℚ
  enable_eraser : Bool
  deriving DecidableEq

/-- Embedding of `GuideGuardLogitsProcessor.__init__` (defaults: language "zh",
confidence_threshold 0.85, enable_eraser True): load the spaCy model for
`language` and store the arguments.  No threshold check of any kind appears
in the source. -/
def processor_init (spacy_available : String → Bool) (language : String)
    (confidence_threshold : ℚ) (enable_eraser : Bool) : Except GGError InitResult :=
  match get_spacy_model spacy_available language with
  | Except.error e => Except.error e
  | Except.ok lang => Except.ok ⟨lang, confidence_threshold, enable_eraser⟩

/-! ## Concrete instances used by witnesses and counterexamples -/

/-- A tokenizer overload rendering an id as its decimal digits: the surface
forms are non-empty, carry no sub-word markers, and are pairwise distinct. -/
def demo_tok (i : Nat) : Option String :=
  some (Nat.repr i)

/-- A processor whose rendered trailing text is always "被" (a configured VP
trigger of the zh table) and whose tagger classifies every candidate as a
VERB; the eraser is disabled. -/
def zh_all_verb : GuideGuardLogitsProcessor :=
  { convert_ids_to_tokens := fun ids => ids.map Nat.repr
    convert_tokens_to_string := fun _ => "被"
    convert_id_to_token := demo_tok
    nlp_tag := fun _ => TagResult.tagged "VERB"
    nlp_lang := "zh"
    confidence_threshold := 1
    enable_eraser := false }

/-- Like `zh_all_verb`, but the tagger classifies exactly the candidates with
surface forms "0", "1", "2" as VERB (three matches inside the inspected
top 10 of a descending score row). -/
def zh_three_verbs : GuideGuardLogitsProcessor :=
  { convert_ids_to_tokens := fun ids => ids.map Nat.repr
    convert_tokens_to_string := fun _ => "被"
    convert_id_to_token := demo_tok
    nlp_tag := fun s => if s == "0" || s == "1" || s == "2" then TagResult.tagged "VERB" else TagResult.emptyDoc
    nlp_lang := "zh"
    confidence_threshold := 1
    enable_eraser := false }

/-- Like `zh_three_verbs` with only two matching candidates ("0" and "1"). -/
def zh_two_verbs : GuideGuardLogitsProcessor :=
  { convert_ids_to_tokens := fun ids => ids.map Nat.repr
    convert_tokens_to_string := fun _ => "被"
    convert_id_to_token := demo_tok
    nlp_tag := fun s => if s == "0" || s == "1" then TagResult.tagged "VERB" else TagResult.emptyDoc
    nlp_lang := "zh"
    confidence_threshold := 1
    enable_eraser := false }

/-- A processor for the eraser scenario: the top candidate (surface form "0")
is unclassified, every other candidate is a VERB, and the eraser is
enabled. -/
def zh_skip_zero : GuideGuardLogitsProcessor :=
  { convert_ids_to_tokens := fun ids => ids.map Nat.repr
    convert_tokens_to_string := fun _ => "被"
    convert_id_to_token := demo_tok
    nlp_tag := fun s => if s == "0" then TagResult.emptyDoc else TagResult.tagged "VERB"
    nlp_lang := "zh"
    confidence_threshold := 1
    enable_eraser := true }

/-- A processor whose rendered trailing text is empty, so the predictor
returns no prediction. -/
def silent_processor : GuideGuardLogitsProcessor :=
  { convert_ids_to_tokens := fun ids => ids.map Nat.repr
    convert_tokens_to_string := fun _ => ""
    convert_id_to_token := demo_tok
    nlp_tag := fun _ => TagResult.tagged "VERB"
    nlp_lang := "zh"
    confidence_threshold := 1
    enable_eraser := true }

/-- An English-language processor whose rendered trailing text is the single
word "lathe", which ends with the configured trigger "the" without any word
boundary. -/
def lathe_processor : GuideGuardLogitsProcessor :=
  { convert_ids_to_tokens := fun ids => ids.map Nat.repr
    convert_tokens_to_string := fun _ => "lathe"
    convert_id_to_token := demo_tok
    nlp_tag := fun _ => TagResult.tagged "NOUN"
    nlp_lang := "en"
    confidence_threshold := 1
    enable_eraser := true }

/-- The tagger of `zh_all_verb` except that it raises on the surface form
"1". -/
def tag_raises_one : String → TagResult :=
  fun s => if s == "1" then TagResult.raises else TagResult.tagged "VERB"

/-- The tagger of `zh_all_verb` except that it returns an empty document on
the surface form "1". -/
def tag_empty_one : String → TagResult :=
  fun s => if s == "1" then TagResult.emptyDoc else TagResult.tagged "VERB"

/-- The processor `zh_all_verb` with the raising tagger `tag_raises_one`. -/
def zh_raises_one : GuideGuardLogitsProcessor :=
  { zh_all_verb with nlp_tag := tag_raises_one }

/-- The processor `zh_all_verb` with the recovering tagger `tag_empty_one`. -/
def zh_empty_one : GuideGuardLogitsProcessor :=
  { zh_all_verb with nlp_tag := tag_empty_one }

/-- A 20-entry score row with strictly descending scores: its top 10 indices
are 0..9. -/
def rowA : List ℚ :=
  [40, 39, 38, 37, 36, 35, 34, 33, 32, 31, 30, 29, 28, 27, 26, 25, 24, 23, 22, 21]

/-- A 20-entry score row with strictly ascending scores: its top 10 indices
are 19..10. -/
def rowB : List ℚ :=
  [1, 2, 3, 4, 5, 6, 7, 8, 9, 10, 11, 12, 13, 14, 15, 16, 17, 18, 19, 20]

/-- A 20-entry score row whose maximum 100 sits at index 0 while every other
entry is below 10 percent of it. -/
def rowE : List ℚ :=
  [100, 9, 8, 7, 6, 5, 4, 3, 2, 1, 0, 0, 0, 0, 0, 0, 0, 0, 0, 0]

/-! ## Helper lemmas -/

/-- Every element of `insertDesc le i l` is `i` or an element of `l`. -/
theorem mem_of_mem_insertDesc {le : Nat → Nat → Bool} {i x : Nat} :
    ∀ {l : List Nat}, x ∈ insertDesc le i l → x = i ∨ x ∈ l := by
  intro l
  induction l with
  | nil =>
    intro h
    simp [insertDesc] at h
    exact Or.inl h
  | cons j rest ih =>
    intro h
    unfold insertDesc at h
    by_cases hc : le i j = true
    · rw [if_pos hc] at h
      rcases List.mem_cons.mp h with h1 | h1
      · exact Or.inl h1
      · exact Or.inr h1
    · rw [if_neg hc] at h
      rcases List.mem_cons.mp h with h1 | h1
      · exact Or.inr (List.mem_cons.mpr (Or.inl h1))
      · rcases ih h1 with h2 | h2
        · exact Or.inl h2
        · exact Or.inr (List.mem_cons.mpr (Or.inr h2))

/-- The insertion sort permutes its input: memberships are preserved. -/
theorem mem_of_mem_sortIdx {le : Nat → Nat → Bool} {x : Nat} :
    ∀ {l : List Nat}, x ∈ sortIdx le l → x ∈ l := by
  intro l
  induction l with
  | nil =>
    intro h
    simp [sortIdx] at h
  | cons j rest ih =>
    intro h
    unfold sortIdx at h
    rcases mem_of_mem_insertDesc h with h1 | h1
    · exact List.mem_cons.mpr (Or.inl h1)
    · exact List.mem_cons.mpr (Or.inr (ih h1))

/-- Every index returned by `torch.topk` addresses an entry of the row. -/
theorem mem_topk_lt {row : List ℚ} {k i : Nat} (h : i ∈ topk_indices row k) :
    i < row.length := by
  unfold topk_indices at h
  exact List.mem_range.mp (mem_of_mem_sortIdx (List.take_subset _ _ h))

/-- Every inspected candidate id addresses an entry of the row. -/
theorem mem_inspected_lt {row : List ℚ} {i : Nat} (h : i ∈ inspected_ids row) :
    i < row.length := by
  unfold inspected_ids at h
  exact mem_topk_lt (List.take_subset _ _ h)

/-- Every allowed candidate id addresses an entry of the row. -/
theorem mem_allowed_lt {P : GuideGuardLogitsProcessor} {c : String} {row : List ℚ} {i : Nat}
    (h : i ∈ allowed_by_candidates P c row) : i < row.length := by
  unfold allowed_by_candidates at h
  exact mem_inspected_lt (List.mem_of_mem_filter h)

/-- An allowed position of a masked row carries the row's original score. -/
theorem val_mem_mask_row {allowed : List Nat} {row : List ℚ} {i : Nat}
    (hlt : i < row.length) (hi : i ∈ allowed) :
    SVal.val (row.getD i 0) ∈ mask_row allowed row := by
  unfold mask_row
  refine List.mem_map.mpr ⟨i, List.mem_range.mpr hlt, ?_⟩
  rw [if_pos hi]

/-- Branch dichotomy of `__call__`: every call returns either the input score
tensor or the mask built from the allowed candidate set, the latter only when
the match count reached 3. -/
theorem call_cases (P : GuideGuardLogitsProcessor) (input_ids : List Nat) (scores : List (List ℚ)) :
    call P input_ids scores = embed_scores scores ∨
    ∃ next_pos, predict_next_pos P input_ids = some next_pos ∧
      3 ≤ (allowed_by_candidates P next_pos (scores.headD [])).length ∧
      call P input_ids scores =
        mask_vec (allowed_by_candidates P next_pos (scores.headD [])) scores := by
  cases hp : predict_next_pos P input_ids with
  | none =>
    simp only [call, hp]
    exact Or.inl trivial
  | some next_pos =>
    simp only [call, hp]
    by_cases h3 : 3 ≤ (allowed_by_candidates P next_pos (scores.headD [])).length
    · rw [if_pos h3]
      by_cases he : allowed_by_candidates P next_pos (scores.headD []) = []
      · rw [if_pos he]
        exact Or.inl rfl
      · rw [if_neg he]
        by_cases hf : (P.enable_eraser &&
            eraser_fires (mask_vec (allowed_by_candidates P next_pos (scores.headD [])) scores) scores) = true
        · rw [if_pos hf]
          exact Or.inl rfl
        · rw [if_neg hf]
          exact Or.inr ⟨next_pos, rfl, h3, rfl⟩
    · rw [if_neg h3]
      exact Or.inl rfl

/-- Searching an appended list with `find?` searches the left part first. -/
theorem find?_append_loc {α : Type} (l₁ l₂ : List α) (p : α → Bool) :
    (l₁ ++ l₂).find? p =
      match l₁.find? p with
      | some x => some x
      | none => l₂.find? p := by
  induction l₁ with
  | nil => rfl
  | cons a rest ih =>
    by_cases h : p a = true
    · simp [List.find?, h]
    · simp [List.find?, h, ih]

/-- The inner rule loop is `find?` over the rule list. -/
theorem find_rule_eq (text : String) (rules : List (String × String)) :
    find_rule text rules = (rules.find? (fun r => pyEndsWith text r.1)).map Prod.snd := by
  induction rules with
  | nil => rfl
  | cons r rest ih =>
    obtain ⟨trigger, epos⟩ := r
    unfold find_rule
    by_cases h : pyEndsWith text trigger = true
    · rw [if_pos h]
      simp [List.find?, h]
    · rw [if_neg h, ih]
      simp [List.find?, h]

/-- The nested loops of `_predict_next_pos` are `find?` over the flattened
rule list, preserving the group-then-rule iteration order. -/
theorem find_trigger_eq (text : String) (groups : List (String × List (String × String))) :
    find_trigger text groups =
      ((groups.flatMap Prod.snd).find? (fun r => pyEndsWith text r.1)).map Prod.snd := by
  induction groups with
  | nil => rfl
  | cons g rest ih =>
    obtain ⟨gname, rules⟩ := g
    unfold find_trigger
    rw [find_rule_eq, List.flatMap_cons, find?_append_loc]
    cases hf : rules.find? (fun r => pyEndsWith text r.1) with
    | none => simpa using ih
    | some r => rfl

/-- The predictor as a single first-match search over `flat_rules`. -/
theorem predict_eq_find (P : GuideGuardLogitsProcessor) (input_ids : List Nat) :
    predict_next_pos P input_ids =
      if rendered_text P input_ids = "" then none
      else
        ((flat_rules P.nlp_lang).find?
            (fun r => pyEndsWith (rendered_text P input_ids) r.1)).map Prod.snd := by
  unfold predict_next_pos flat_rules
  by_cases h : rendered_text P input_ids = ""
  · rw [if_pos h, if_pos h]
  · rw [if_neg h, if_neg h, find_trigger_eq]

/-- If some list element satisfies `p` then `find?` returns a satisfying
element of the list. -/
theorem find?_some_of_mem {α : Type} {p : α → Bool} {x : α} :
    ∀ {l : List α}, x ∈ l → p x = true →
      ∃ y, l.find? p = some y ∧ y ∈ l ∧ p y = true := by
  intro l
  induction l with
  | nil => intro hx; cases hx
  | cons a rest ih =>
    intro hx hp
    by_cases h : p a = true
    · exact ⟨a, by simp [List.find?, h], List.mem_cons.mpr (Or.inl rfl), h⟩
    · have hx2 : x ∈ rest := by
        rcases List.mem_cons.mp hx with h1 | h1
        · rw [h1] at hp
          exact absurd hp h
        · exact h1
      obtain ⟨y, hy1, hy2, hy3⟩ := ih hx2 hp
      exact ⟨y, by simp [List.find?, h, hy1], List.mem_cons.mpr (Or.inr hy2), hy3⟩

/-! ## Claims -/

/-- Claim C1 (confirmed). For every input where the Category Predictor
returns no prediction (the rendered trailing text is empty or matches no
configured trigger, i.e. `_predict_next_pos` returns `None`), `__call__`
returns the score vector unchanged: the source executes
`return scores  # No constraint applied`, handing back the caller's tensor
itself, embedded here as the identity coercion `embed_scores`. -/
theorem claim_C1 (P : GuideGuardLogitsProcessor) (input_ids : List Nat)
    (scores : List (List ℚ)) (h : predict_next_pos P input_ids = none) :
    call P input_ids scores = embed_scores scores := by
  unfold call
  rw [h]

/-- Witness for C1: a processor whose rendered trailing text is empty. -/
theorem claim_C1_witness :
    predict_next_pos silent_processor [1, 2] = none ∧
    call silent_processor [1, 2] [[1, 2, 3]] = embed_scores [[1, 2, 3]] :=
  ⟨by decide, claim_C1 silent_processor [1, 2] [[1, 2, 3]] (by decide)⟩

/-- Claim C2 (confirmed). Whenever the gate applies a mask (returns a vector
different from the input), the result has at least one finite (non-sentinel)
entry: masking requires `pos_count >= 3`, hence a non-empty allowed set, and
every allowed index addresses an entry of the first score row, which the mask
retains as a finite value. -/
theorem claim_C2 (P : GuideGuardLogitsProcessor) (input_ids : List Nat)
    (scores : List (List ℚ)) (h : call P input_ids scores ≠ embed_scores scores) :
    ∃ row ∈ call P input_ids scores, ∃ x ∈ row, x ≠ SVal.ninf := by
  rcases call_cases P input_ids scores with hc | ⟨c, hp, h3, hc⟩
  · exact absurd hc h
  · have hne : allowed_by_candidates P c (scores.headD []) ≠ [] := by
      intro h0
      rw [h0] at h3
      exact absurd h3 (by decide)
    obtain ⟨i, hi⟩ := List.exists_mem_of_ne_nil _ hne
    have hlt : i < (scores.headD []).length := mem_allowed_lt hi
    cases scores with
    | nil => simp at hlt
    | cons r0 rest =>
      rw [hc]
      refine ⟨mask_row (allowed_by_candidates P c ((r0 :: rest).headD [])) r0, ?_, ?_⟩
      · unfold mask_vec
        exact List.mem_cons.mpr (Or.inl rfl)
      · refine ⟨SVal.val (r0.getD i 0), val_mem_mask_row ?_ hi, by simp⟩
        simpa using hlt

/-- Witness for C2: a masked call (ten matching candidates) whose result
differs from the input and keeps finite entries. -/
theorem claim_C2_witness :
    call zh_all_verb [0] [rowA] ≠ embed_scores [rowA] ∧
    ∃ row ∈ call zh_all_verb [0] [rowA], ∃ x ∈ row, x ≠ SVal.ninf :=
  ⟨by decide, claim_C2 zh_all_verb [0] [rowA] (by decide)⟩

/-- Claim C3 (confirmed). With a predicted category: fewer than 3 matching
candidates among the inspected top 10 (of the first row's top 20) returns the
scores unchanged; and whenever the gate activates (returns anything other
than the unchanged scores), the match count reached 3, the result is exactly
the mask retaining the original scores at the matching candidate positions
and the sentinel everywhere else, and the allowed set is a subset of the ten
inspected candidate ids (never the full category vocabulary). -/
theorem claim_C3 (P : GuideGuardLogitsProcessor) (input_ids : List Nat)
    (scores : List (List ℚ)) (next_pos : String)
    (hp : predict_next_pos P input_ids = some next_pos) :
    ((allowed_by_candidates P next_pos (scores.headD [])).length < 3 →
        call P input_ids scores = embed_scores scores) ∧
    (call P input_ids scores ≠ embed_scores scores →
        3 ≤ (allowed_by_candidates P next_pos (scores.headD [])).length ∧
        call P input_ids scores =
          mask_vec (allowed_by_candidates P next_pos (scores.headD [])) scores ∧
        allowed_by_candidates P next_pos (scores.headD []) ⊆ inspected_ids (scores.headD [])) := by
  constructor
  · intro hlen
    simp only [call, hp]
    rw [if_neg (show ¬ 3 ≤ (allowed_by_candidates P next_pos (scores.headD [])).length by omega)]
  · intro hne
    rcases call_cases P input_ids scores with hc | ⟨c, hp2, h3, hc⟩
    · exact absurd hc hne
    · have hcn : next_pos = c := by
        rw [hp] at hp2
        exact Option.some.inj hp2
      rw [hcn]
      refine ⟨h3, hc, ?_⟩
      unfold allowed_by_candidates
      exact fun x hx => List.mem_of_mem_filter hx

/-- Witness for C3, tracing the spec's end-to-end example: with exactly 3
matching candidates the mask is returned with exactly those positions
retained; with only 2 matching the scores come back unchanged. -/
theorem claim_C3_witness :
    predict_next_pos zh_three_verbs [0] = some "VERB" ∧
    3 ≤ (allowed_by_candidates zh_three_verbs "VERB" (([rowA] : List (List ℚ)).headD [])).length ∧
    call zh_three_verbs [0] [rowA] =
      mask_vec (allowed_by_candidates zh_three_verbs "VERB" (([rowA] : List (List ℚ)).headD [])) [rowA] ∧
    predict_next_pos zh_two_verbs [0] = some "VERB" ∧
    call zh_two_verbs [0] [rowA] = embed_scores [rowA] :=
  ⟨by decide, by decide,
    ((claim_C3 zh_three_verbs [0] [rowA] "VERB" (by decide)).2 (by decide)).2.1,
    by decide,
    (claim_C3 zh_two_verbs [0] [rowA] "VERB" (by decide)).1 (by decide)⟩

/-- Claim C4 (confirmed). With the eraser enabled and a mask computed
(predicted category and at least 3 matching candidates): if the maximum score
inside the masked vector is below 10 percent of the maximum of the original
vector, the call discards the mask and returns the original scores; otherwise
it returns the masked vector. -/
theorem claim_C4 (P : GuideGuardLogitsProcessor) (input_ids : List Nat)
    (scores : List (List ℚ)) (next_pos : String)
    (hp : predict_next_pos P input_ids = some next_pos)
    (h3 : 3 ≤ (allowed_by_candidates P next_pos (scores.headD [])).length)
    (he : P.enable_eraser = true) :
    (eraser_fires (mask_vec (allowed_by_candidates P next_pos (scores.headD [])) scores) scores = true →
        call P input_ids scores = embed_scores scores) ∧
    (eraser_fires (mask_vec (allowed_by_candidates P next_pos (scores.headD [])) scores) scores = false →
        call P input_ids scores =
          mask_vec (allowed_by_candidates P next_pos (scores.headD [])) scores) := by
  have hnil : allowed_by_candidates P next_pos (scores.headD []) ≠ [] := by
    intro h0
    rw [h0] at h3
    exact absurd h3 (by decide)
  constructor
  · intro hf
    simp only [call, hp]
    rw [if_pos h3, if_neg hnil, he, hf]
    rfl
  · intro hf
    simp only [call, hp]
    rw [if_pos h3, if_neg hnil, he, hf]
    rfl

/-- Witness for C4: the masked maximum 9 is below 10 percent of the original
maximum 100, so the eraser fires and the call returns the original scores. -/
theorem claim_C4_witness :
    eraser_fires
        (mask_vec (allowed_by_candidates zh_skip_zero "VERB" (([rowE] : List (List ℚ)).headD [])) [rowE])
        [rowE] = true ∧
    call zh_skip_zero [0] [rowE] = embed_scores [rowE] := by
  have h1 :
      flat_max (mask_vec (allowed_by_candidates zh_skip_zero "VERB" (([rowE] : List (List ℚ)).headD [])) [rowE]) =
        SVal.val 9 := by decide
  have h2 : flat_max (embed_scores [rowE]) = SVal.val 100 := by decide
  have hf :
      eraser_fires
        (mask_vec (allowed_by_candidates zh_skip_zero "VERB" (([rowE] : List (List ℚ)).headD [])) [rowE])
        [rowE] = true := by
    unfold eraser_fires
    rw [h1, h2]
    simp only [SVal.mulPointOne, SVal.blt, decide_eq_true_eq]
    norm_num
  exact ⟨hf, (claim_C4 zh_skip_zero [0] [rowE] "VERB" (by decide) (by decide) rfl).1 hf⟩

/-- Claim C5 (corrected), counterexample. The claim asserts that in a batched
call each sequence's decision depends only on its own history and score row
and that permuting the batch changes neither result.  In the source the
inspected candidates come from `topk_indices[0]` — the first row only — and
the mask and eraser are applied batch-wide, so the row holding `rowB` is
masked at columns chosen by the other row: in `[rowA, rowB]` the output row
for `rowB` keeps columns 0..9 (rowA's top ids), while in `[rowB, rowA]` it
keeps columns 10..19 (rowB's own top ids). -/
theorem claim_C5_counterexample :
    (call zh_all_verb [0] [rowA, rowB]).getD 1 [] ≠ (call zh_all_verb [0] [rowB, rowA]).getD 0 [] := by
  decide

/-- Claim C5 (corrected), amended claim. Each call is a pure function of its
inputs and every output row draws its retained scores only from its own input
row; but the activation decision and the allowed column set are computed from
the first batch row alone (`scores.headD []`, embedding `topk_indices[0]`),
and are shared by every row of the batch, so decisions of distinct sequences
in one batch are not independent. -/
theorem claim_C5_amended (P : GuideGuardLogitsProcessor) (input_ids : List Nat)
    (scores : List (List ℚ)) :
    call P input_ids scores = embed_scores scores ∨
    ∃ next_pos, predict_next_pos P input_ids = some next_pos ∧
      call P input_ids scores =
        scores.map (mask_row (allowed_by_candidates P next_pos (scores.headD []))) := by
  rcases call_cases P input_ids scores with hc | ⟨c, hp, _, hc⟩
  · exact Or.inl hc
  · exact Or.inr ⟨c, hp, hc⟩

/-- Claim C6 (corrected), counterexample. The claim asserts that invalid
threshold values (confidence_threshold outside 0 < t ≤ 1) are rejected at
construction.  In the source `__init__` stores `confidence_threshold` without
any check (and never reads it again): construction with the out-of-range
value 2 succeeds. -/
theorem claim_C6_counterexample :
    processor_init (fun _ => true) "zh" 2 true = Except.ok ⟨"zh", 2, true⟩ := by
  rfl

/-- Claim C6 (corrected), amended claim. Construction with an unsupported
language selector fails with the uncaught `ValueError` of
`_get_spacy_model`; but no threshold validation exists: for the supported
language "zh" (with its model installed) construction succeeds for every
`confidence_threshold` whatsoever, which it stores unused.  (No
minimum-count parameter exists in the constructor at all.) -/
theorem claim_C6_amended (language : String) (confidence_threshold : ℚ)
    (enable_eraser : Bool) (avail : String → Bool) :
    (language ≠ "zh" → language ≠ "en" →
        processor_init avail language confidence_threshold enable_eraser =
          Except.error (GGError.valueError ("Unsupported language: " ++ language))) ∧
    (avail "zh" = true →
        processor_init avail "zh" confidence_threshold enable_eraser =
          Except.ok ⟨"zh", confidence_threshold, enable_eraser⟩) := by
  constructor
  · intro h1 h2
    unfold processor_init get_spacy_model
    rw [if_neg h1, if_neg h2]
  · intro ha
    unfold processor_init get_spacy_model
    rw [if_pos rfl, if_pos ha]

/-- Witness for the amended C6: the unsupported selector "fr" is rejected
while the out-of-range threshold 2 is accepted for "zh". -/
theorem claim_C6_witness :
    processor_init (fun _ => true) "fr" 2 true =
      Except.error (GGError.valueError ("Unsupported language: " ++ "fr")) ∧
    processor_init (fun _ => true) "zh" 2 true = Except.ok ⟨"zh", 2, true⟩ :=
  ⟨(claim_C6_amended "fr" 2 true (fun _ => true)).1 (by decide) (by decide),
   (claim_C6_amended "fr" 2 true (fun _ => true)).2 rfl⟩

/-- Claim C7 (confirmed). A candidate on which the tagger raises is treated
exactly as an unclassified candidate: replacing `raises` outcomes by
`emptyDoc` outcomes changes nothing about the call's result (the failure
never propagates — the embedded `call` is total and the `except` clause of
the source catches the exception inside the loop body), and a raising
candidate is excluded from the allowed set (hence from the matching count,
which is the allowed set's size). -/
theorem claim_C7 (P Q : GuideGuardLogitsProcessor)
    (h1 : P.convert_ids_to_tokens = Q.convert_ids_to_tokens)
    (h2 : P.convert_tokens_to_string = Q.convert_tokens_to_string)
    (h3 : P.convert_id_to_token = Q.convert_id_to_token)
    (h4 : P.nlp_lang = Q.nlp_lang)
    (h5 : P.enable_eraser = Q.enable_eraser)
    (h6 : ∀ s, P.nlp_tag s = Q.nlp_tag s ∨
        (P.nlp_tag s = TagResult.raises ∧ Q.nlp_tag s = TagResult.emptyDoc))
    (input_ids : List Nat) (scores : List (List ℚ)) :
    call P input_ids scores = call Q input_ids scores ∧
    (∀ token_id next_pos s, P.convert_id_to_token token_id = some s →
        P.nlp_tag (clean_token s) = TagResult.raises →
        token_id ∉ allowed_by_candidates P next_pos (scores.headD [])) := by
  have hpred : predict_next_pos P input_ids = predict_next_pos Q input_ids := by
    unfold predict_next_pos rendered_text
    rw [h1, h2, h4]
  have hcm : ∀ c tid, cand_matches P c tid = cand_matches Q c tid := by
    intro c tid
    unfold cand_matches
    rw [h3]
    cases hq : Q.convert_id_to_token tid with
    | none => rfl
    | some s =>
      dsimp only
      rcases h6 (clean_token s) with he | ⟨hr, hq2⟩
      · rw [he]
      · rw [hr, hq2]
  have hal : ∀ c row, allowed_by_candidates P c row = allowed_by_candidates Q c row := by
    intro c row
    unfold allowed_by_candidates
    rw [funext (hcm c)]
  constructor
  · cases hq : predict_next_pos Q input_ids with
    | none =>
      simp only [call, hpred, hq]
    | some c =>
      simp only [call, hpred, hq]
      rw [hal, h5]
  · intro tid c s hct hr hmem
    have hmatch := List.of_mem_filter hmem
    unfold cand_matches at hmatch
    rw [hct] at hmatch
    by_cases hps : pyStrip (clean_token s) = ""
    · simp only [hps, if_pos] at hmatch
      exact absurd hmatch (by decide)
    · simp only [if_neg hps, hr] at hmatch
      exact absurd hmatch (by decide)

/-- Witness for C7: the tagger raising on the candidate "1" yields the same
call result as the tagger returning an empty document on "1", and "1" is
excluded from the allowed set. -/
theorem claim_C7_witness :
    call zh_raises_one [0] [rowA] = call zh_empty_one [0] [rowA] ∧
    (1 : Nat) ∉ allowed_by_candidates zh_raises_one "VERB" (([rowA] : List (List ℚ)).headD []) :=
  have h := claim_C7 zh_raises_one zh_empty_one rfl rfl rfl rfl rfl
    (by
      intro s
      by_cases hs : s = "1"
      · refine Or.inr ⟨?_, ?_⟩
        · simp [zh_raises_one, zh_all_verb, tag_raises_one, hs]
        · simp [zh_empty_one, zh_all_verb, tag_empty_one, hs]
      · refine Or.inl ?_
        simp [zh_raises_one, zh_empty_one, zh_all_verb, tag_raises_one, tag_empty_one, hs])
    [0] [rowA]
  ⟨h.1, h.2 1 "VERB" (Nat.repr 1) (by decide) (by decide)⟩

/-- Claim C8 (confirmed). The trigger-pattern predictor renders the last
(at most) three tokens to surface text, lower-cases and trims it, and either
returns no prediction (empty text, or no trigger is a suffix) or the category
of the first matching trigger in the fixed iteration order: phrase-category
group order, then rule order within a group — i.e. the order of
`flat_rules`. -/
theorem claim_C8 (P : GuideGuardLogitsProcessor) (input_ids : List Nat) :
    predict_next_pos P input_ids =
      if rendered_text P input_ids = "" then none
      else
        ((flat_rules P.nlp_lang).find?
            (fun r => pyEndsWith (rendered_text P input_ids) r.1)).map Prod.snd :=
  predict_eq_find P input_ids

/-- Claim C9 (confirmed). Trigger matching is a raw character-suffix check
with no word-boundary test: whenever the rendered, lower-cased, trimmed text
is non-empty and ends with any configured trigger, the predictor returns a
prediction, namely the category of a configured trigger that is a raw suffix
of the text (the first such in rule order); in particular the English text
"lathe" ends with the trigger "the" inside a longer word and yields NOUN. -/
theorem claim_C9 :
    (∀ (P : GuideGuardLogitsProcessor) (input_ids : List Nat) (trigger cat : String),
        (trigger, cat) ∈ flat_rules P.nlp_lang →
        rendered_text P input_ids ≠ "" →
        pyEndsWith (rendered_text P input_ids) trigger = true →
        ∃ t2 c2, (t2, c2) ∈ flat_rules P.nlp_lang ∧
          pyEndsWith (rendered_text P input_ids) t2 = true ∧
          predict_next_pos P input_ids = some c2) ∧
    predict_next_pos lathe_processor [0] = some "NOUN" := by
  constructor
  · intro P input_ids trigger cat hmem hne hends
    obtain ⟨y, hy1, hy2, hy3⟩ :=
      find?_some_of_mem (p := fun r => pyEndsWith (rendered_text P input_ids) r.1) hmem hends
    refine ⟨y.1, y.2, ?_, hy3, ?_⟩
    · simpa using hy2
    · rw [predict_eq_find, if_neg hne, hy1]
      rfl
  · decide

/-- Witness for C9: the in-word suffix match "lathe" / "the" produces a
prediction. -/
theorem claim_C9_witness :
    ∃ t2 c2, (t2, c2) ∈ flat_rules lathe_processor.nlp_lang ∧
      pyEndsWith (rendered_text lathe_processor [0]) t2 = true ∧
      predict_next_pos lathe_processor [0] = some c2 :=
  claim_C9.1 lathe_processor [0] "the" "NOUN" (by decide) (by decide) (by decide)

/-- Claim C10 (confirmed). The call never writes into the caller's scores
buffer: in the state-passing embedding `call_st`, which threads the buffer
through every tensor statement of the source, the buffer after the call
equals the input (the only indexed assignment targets the tensor freshly
allocated by `torch.full_like`), and the returned tensor is either the input
scores themselves (no constraint, or eraser fired) or that newly built
mask. -/
theorem claim_C10 (P : GuideGuardLogitsProcessor) (input_ids : List Nat)
    (scores : List (List ℚ)) :
    (call_st P input_ids scores).2 = scores ∧
    (call_st P input_ids scores).1 = call P input_ids scores ∧
    ((call_st P input_ids scores).1 = embed_scores scores ∨
      ∃ next_pos, predict_next_pos P input_ids = some next_pos ∧
        (call_st P input_ids scores).1 =
          mask_vec (allowed_by_candidates P next_pos (scores.headD [])) scores) := by
  have hpair : call_st P input_ids scores = (call P input_ids scores, scores) := by
    cases hp : predict_next_pos P input_ids with
    | none => simp only [call_st, call, hp]
    | some c =>
      simp only [call_st, call, hp]
      by_cases h3 : 3 ≤ (allowed_by_candidates P c (scores.headD [])).length
      · rw [if_pos h3, if_pos h3]
        by_cases he : allowed_by_candidates P c (scores.headD []) = []
        · rw [if_pos he, if_pos he]
        · rw [if_neg he, if_neg he]
          by_cases hf : (P.enable_eraser &&
              eraser_fires (mask_vec (allowed_by_candidates P c (scores.headD [])) scores) scores) = true
          · rw [if_pos hf, if_pos hf]
          · rw [if_neg hf, if_neg hf]
      · rw [if_neg h3, if_neg h3]
  rw [hpair]
  refine ⟨rfl, rfl, ?_⟩
  rcases call_cases P input_ids scores with hc | ⟨c, hp, _, hc⟩
  · exact Or.inl hc
  · exact Or.inr ⟨c, hp, hc⟩

end GuideGuard
